import Mathlib

/-!
Verification development for the One-Pro IMU retriever.

The wire decoder (`main.py`, class `IMUReader`) is modelled at byte level:
a byte is a `Nat` (values < 256 in well-formed inputs) and a byte string is
a `List Nat`.  Python's `bytes.hex()` / `bytes.fromhex` round-trip is the
identity on bytes, and a hex string of length `2*n` cut into 8-character
chunks corresponds to the byte string of length `n` cut into 4-byte chunks,
so `decode_imu_data` (which receives `data.hex()`) is modelled directly on
the byte string.  `struct.unpack` of a little-endian float32 is modelled by
the 32-bit word assembled from the four bytes in little-endian order: a
sample field records the exact IEEE-754 bit pattern, so equality of fields
is bit-exact equality of the decoded float32 values.

The head tracker (`src/head_tracker.py`, class `HeadTracker`) manipulates
Python floats with `math.sqrt` / `math.atan2`; it is modelled over `ℝ`
(idealised real arithmetic, the reading under which the numeric claims of
the specification are stated).
-/

namespace IMURepo

/-- Protocol constant `HEADER = bytes.fromhex("283600000080")` from `main.py`. -/
def HEADER : List Nat := [0x28, 0x36, 0x00, 0x00, 0x00, 0x80]

/-- Protocol constant
`FOOTER = bytes.fromhex("000000cff753e3a59b0000db34b6d782de1b43")` from `main.py`. -/
def FOOTER : List Nat :=
  [0x00, 0x00, 0x00, 0xcf, 0xf7, 0x53, 0xe3, 0xa5, 0x9b, 0x00,
   0x00, 0xdb, 0x34, 0xb6, 0xd7, 0x82, 0xde, 0x1b, 0x43]

/-- Protocol constant `SENSOR_MSG = bytes.fromhex("00401f000040")` from `main.py`. -/
def SENSOR_MSG : List Nat := [0x00, 0x40, 0x1f, 0x00, 0x00, 0x40]

/-- `DATA_START_OFFSET = 20` from `main.py`. -/
def DATA_START_OFFSET : Nat := 20

/-- `abs(DATA_END_OFFSET)` where `DATA_END_OFFSET = -26` in `main.py`. -/
def DATA_END_ABS : Nat := 26

/-- Bit-level model of the `IMUData` dataclass produced by `main.py`: each
field holds the 32-bit IEEE-754 single-precision pattern decoded from the
wire (field order as in the source dataclass). -/
structure IMUData32 where
  gx : Nat
  gy : Nat
  gz : Nat
  ax : Nat
  ay : Nat
  az : Nat
deriving DecidableEq

/-- The 32-bit word encoded little-endian by a byte list
(`struct.unpack` of a 4-byte chunk yields the float32 with this pattern). -/
def le32 (l : List Nat) : Nat := l.foldr (fun b acc => b + 256 * acc) 0

/-- A float32 bit pattern is finite iff its exponent field is not all-ones
(otherwise it denotes an infinity or a NaN). -/
def isFinite32 (p : Nat) : Prop := p / 2 ^ 23 % 256 ≠ 255

instance (p : Nat) : Decidable (isFinite32 p) := by
  unfold isFinite32; infer_instance

namespace IMUReader

/-- Model of `IMUReader.decode_imu_data` from `main.py`, at byte level.
The source receives `hex_data = data.hex()` (two hex characters per byte):
`len(hex_data) < 48` is `2 * length < 48`; the 8-character hex chunks are
the 4-byte chunks, so `len(chunks)` is `⌈2*length/8⌉ = (2*length+7)/8`;
`chunks[:6]` are the first six 4-byte chunks, each decoded by
`struct.unpack('<f', ...)` (which succeeds whenever the chunk has exactly
4 bytes, i.e. whenever the length checks passed, so the
`except (ValueError, struct.error)` branch is unreachable here).  Note the
axis permutation `ax=values[0], ay=values[1], az=values[2], gx=values[5],
gy=values[4], gz=values[3]`. -/
def decode_imu_data (bs : List Nat) : Option IMUData32 :=
  if 2 * bs.length < 48 then none
  else if (2 * bs.length + 7) / 8 < 6 then none
  else
    some { ax := le32 ((bs.drop 0).take 4)
           ay := le32 ((bs.drop 4).take 4)
           az := le32 ((bs.drop 8).take 4)
           gz := le32 ((bs.drop 12).take 4)
           gy := le32 ((bs.drop 16).take 4)
           gx := le32 ((bs.drop 20).take 4) }

/-- The middle payload `data = message[len(HEADER) + 8 : -len(FOOTER) - 31]`
stripped by `IMUReader.process_message` (callers guarantee
`message.length ≥ 64`, under which the Python slice has this value). -/
def stripPayload (message : List Nat) : List Nat :=
  (message.drop 14).take (message.length - 64)

/-- The numeric window `data[DATA_START_OFFSET:DATA_END_OFFSET]`, i.e.
`data[20:-26]`, extracted by `IMUReader.process_message` (callers guarantee
`data.length ≥ 46`, under which the Python slice has this value). -/
def numericWindow (data : List Nat) : List Nat :=
  (data.drop 20).take (data.length - 46)

/-- Model of `IMUReader.process_message` from `main.py`. -/
def process_message (message : List Nat) : Option IMUData32 :=
  if message.length < HEADER.length + 8 + FOOTER.length + 31 then none
  else
    let data := stripPayload message
    if ¬ (SENSOR_MSG <:+ data) then none
    else if data.length < DATA_START_OFFSET + DATA_END_ABS then none
    else decode_imu_data (numericWindow data)

end IMUReader

/-- The four bytes of a 32-bit word in little-endian order (the wire
encoding of a float32 bit pattern). -/
def encodeLE32 (p : Nat) : List Nat :=
  [p % 256, p / 256 % 256, p / 65536 % 256, p / 16777216 % 256]

/-- Model of Python's `buffer.find(pat, 0)`: the index of the first
occurrence of `pat` as a contiguous run in `l` (`none` models `-1`). -/
def bfind (pat l : List Nat) : Option Nat :=
  if pat <+: l then some 0
  else
    match l with
    | [] => none
    | _ :: t => (bfind pat t).map (· + 1)

/-- The framing loop body of `IMUReader.run` from `main.py`: repeatedly find
the first `HEADER`, then the first `FOOTER` at or after it
(`recv_buffer.find(FOOTER, header_pos)`), emit the inclusive message
`recv_buffer[header_pos:footer_pos + len(FOOTER)]` and drop the buffer up
to the end of the message; stop when a marker is missing, retaining the
whole buffer.  Returns the emitted messages in order and the retained
buffer. -/
def processBuffer (buf : List Nat) : List (List Nat) × List Nat :=
  match hh : bfind HEADER buf with
  | none => ([], buf)
  | some h =>
    match hf : bfind FOOTER (buf.drop h) with
    | none => ([], buf)
    | some f =>
      let rest := processBuffer (buf.drop (h + (f + 19)))
      (((buf.drop h).take (f + 19)) :: rest.1, rest.2)
termination_by buf.length
decreasing_by
  simp only [List.length_drop]
  rcases buf with _ | ⟨a, t⟩
  · simp [bfind, HEADER] at hh
  · simp only [List.length_cons]
    omega

/-- The chunked driving loop of `IMUReader.run`: each received chunk is
appended to the retained buffer and the framing loop is run; messages from
successive chunks are concatenated in order. -/
def feedSeq (buf : List Nat) : List (List Nat) → List (List Nat) × List Nat
  | [] => ([], buf)
  | ch :: rest =>
    let p := processBuffer (buf ++ ch)
    let q := feedSeq p.2 rest
    (p.1 ++ q.1, q.2)

/-- A byte frame built per the wire format of the specification (§6):
start marker, 8 session-id bytes, the stripped payload — 20 leading bytes,
the 24-byte numeric window holding the six little-endian float32 values
`v0..v5`, 20 more metadata bytes, and the trailing 6-byte sensor-message
marker — then 31 trailing metadata bytes and the end marker.  `p0..p5` are
the six float32 bit patterns `v0..v5`. -/
def mkFrame (sid pre post tail : List Nat) (p0 p1 p2 p3 p4 p5 : Nat) : List Nat :=
  HEADER ++ sid ++ pre ++
    encodeLE32 p0 ++ encodeLE32 p1 ++ encodeLE32 p2 ++
    encodeLE32 p3 ++ encodeLE32 p4 ++ encodeLE32 p5 ++
    post ++ SENSOR_MSG ++ tail ++ FOOTER

/-- A sensor frame whose stripped payload is 71 bytes long (one more than
minimal): 20 leading bytes, a 25-byte numeric window region, 20 more
metadata bytes, and the sensor-message marker, inside start/end markers
with session id and trailing metadata. -/
def frame71 : List Nat :=
  HEADER ++ List.replicate 8 0 ++ List.replicate 20 0 ++ List.replicate 25 0 ++
    List.replicate 20 0 ++ SENSOR_MSG ++ List.replicate 31 0 ++ FOOTER

/-- The `IMUData` dataclass of `src/imu_data.py` (fields in source order),
over idealised real arithmetic. -/
structure IMUData where
  gx : ℝ
  gy : ℝ
  gz : ℝ
  ax : ℝ
  ay : ℝ
  az : ℝ

/-- The mutable state of `HeadTracker` from `src/head_tracker.py`
(every field assigned in `__init__`). -/
structure HeadTracker where
  gyro_bias_x : ℝ
  gyro_bias_y : ℝ
  gyro_bias_z : ℝ
  is_calibrated : Bool
  calibration_samples : List (ℝ × ℝ × ℝ)
  calibration_count : Nat
  calibration_target : Nat
  pitch : ℝ
  yaw : ℝ
  roll : ℝ
  zero_pitch : ℝ
  zero_yaw : ℝ
  zero_roll : ℝ
  last_time : ℝ
  movement_threshold : ℝ
  pitch_scale : ℝ
  yaw_scale : ℝ
  roll_scale : ℝ

namespace HeadTracker

/-- `HeadTracker.__init__`; `t` is the value of `time.time()` at
construction. -/
noncomputable def init (t : ℝ) : HeadTracker where
  gyro_bias_x := 0
  gyro_bias_y := 0
  gyro_bias_z := 0
  is_calibrated := false
  calibration_samples := []
  calibration_count := 0
  calibration_target := 500
  pitch := 0
  yaw := 0
  roll := 0
  zero_pitch := 0
  zero_yaw := 0
  zero_roll := 0
  last_time := t
  movement_threshold := 0.5
  pitch_scale := 3
  yaw_scale := 60
  roll_scale := 1

/-- `HeadTracker.calibrate_gyroscope`: the updated state paired with the
returned boolean. -/
noncomputable def calibrate_gyroscope (s : HeadTracker) (d : IMUData) : HeadTracker × Bool :=
  if s.is_calibrated then (s, true)
  else
    let samples := s.calibration_samples ++ [(d.gx, d.gy, d.gz)]
    let count := s.calibration_count + 1
    if count ≥ s.calibration_target then
      ({ s with
          calibration_samples := samples
          calibration_count := count
          gyro_bias_x := (samples.map (fun v => v.1)).sum / (samples.length : ℝ)
          gyro_bias_y := (samples.map (fun v => v.2.1)).sum / (samples.length : ℝ)
          gyro_bias_z := (samples.map (fun v => v.2.2)).sum / (samples.length : ℝ)
          is_calibrated := true
          pitch := 0
          yaw := 0
          roll := 0
          last_time := 0 }, true)
    else
      ({ s with calibration_samples := samples, calibration_count := count }, false)

/-- Feeding a list of samples through `calibrate_gyroscope` one call at a
time (the returned booleans are discarded). -/
noncomputable def calibrateList (s : HeadTracker) (ds : List IMUData) : HeadTracker :=
  ds.foldl (fun s d => (s.calibrate_gyroscope d).1) s

/-- `HeadTracker.reset_calibration`. -/
def reset_calibration (s : HeadTracker) : HeadTracker :=
  { s with
      calibration_samples := []
      calibration_count := 0
      is_calibrated := false
      gyro_bias_x := 0
      gyro_bias_y := 0
      gyro_bias_z := 0 }

/-- `HeadTracker.zero_view`. -/
def zero_view (s : HeadTracker) : HeadTracker :=
  { s with zero_pitch := s.pitch, zero_yaw := s.yaw, zero_roll := s.roll }

/-- `HeadTracker.get_calibration_progress`. -/
noncomputable def get_calibration_progress (s : HeadTracker) : ℝ :=
  (s.calibration_count : ℝ) / (s.calibration_target : ℝ) * 100

/-- The first loop of `HeadTracker._wrap_angle`:
`while angle > 180: angle -= 360`. -/
noncomputable def wrapDown (a : ℝ) : ℝ :=
  if a > 180 then wrapDown (a - 360) else a
termination_by (⌈(a - 180) / 360⌉).toNat
decreasing_by
  have h1 : (0 : ℝ) < (a - 180) / 360 := by
    apply div_pos (by linarith) (by norm_num)
  have h2 : (1 : ℤ) ≤ ⌈(a - 180) / 360⌉ := by
    exact_mod_cast Int.ceil_pos.mpr h1
  have h3 : ⌈(a - 360 - 180) / 360⌉ = ⌈(a - 180) / 360⌉ - 1 := by
    rw [(by ring : (a - 360 - 180) / 360 = (a - 180) / 360 - 1), Int.ceil_sub_one]
  omega

/-- The second loop of `HeadTracker._wrap_angle`:
`while angle < -180: angle += 360`. -/
noncomputable def wrapUp (a : ℝ) : ℝ :=
  if a < -180 then wrapUp (a + 360) else a
termination_by (⌈(-180 - a) / 360⌉).toNat
decreasing_by
  have h1 : (0 : ℝ) < (-180 - a) / 360 := by
    apply div_pos (by linarith) (by norm_num)
  have h2 : (1 : ℤ) ≤ ⌈(-180 - a) / 360⌉ := by
    exact_mod_cast Int.ceil_pos.mpr h1
  have h3 : ⌈(-180 - (a + 360)) / 360⌉ = ⌈(-180 - a) / 360⌉ - 1 := by
    rw [(by ring : (-180 - (a + 360)) / 360 = (-180 - a) / 360 - 1), Int.ceil_sub_one]
  omega

/-- `HeadTracker._wrap_angle`: keep an angle between -180 and 180 degrees
by repeatedly subtracting, then adding, 360. -/
noncomputable def wrap_angle (a : ℝ) : ℝ := wrapUp (wrapDown a)

/-- `HeadTracker.get_relative_orientation` (the pitch/yaw/roll entries of
the returned dict, in that order). -/
noncomputable def get_relative_orientation (s : HeadTracker) : ℝ × ℝ × ℝ :=
  (wrap_angle ((s.pitch - s.zero_pitch) * s.pitch_scale),
   wrap_angle ((s.yaw - s.zero_yaw) * s.yaw_scale),
   wrap_angle ((s.roll - s.zero_roll) * s.roll_scale))

end HeadTracker

/-- Python's `math.atan2(y, x)`: the argument of the complex number
`x + y*i`, in `(-π, π]`. -/
noncomputable def atan2 (y x : ℝ) : ℝ := Complex.arg (x + y * Complex.I)

namespace HeadTracker

/-- `HeadTracker.update`; `now` is the value of `time.time()` at the call. -/
noncomputable def update (s : HeadTracker) (d : IMUData) (now : ℝ) : HeadTracker :=
  if ¬ s.is_calibrated then s
  else
    let dt := now - s.last_time
    if s.last_time = 0 then { s with last_time := now }
    else
      let gyro_x := d.gx - s.gyro_bias_x
      let gyro_y := d.gy - s.gyro_bias_y
      let gyro_z := d.gz - s.gyro_bias_z
      let pitch_gyro := s.pitch + gyro_x * dt
      let yaw_gyro := s.yaw + gyro_y * dt
      let roll_gyro := s.roll + gyro_z * dt
      let acc_magnitude := Real.sqrt (d.ax * d.ax + d.ay * d.ay + d.az * d.az)
      let triple :=
        if acc_magnitude > 0.01 then
          let pitch_accel := atan2 (-d.ax) (Real.sqrt (d.ay * d.ay + d.az * d.az)) * 180 / Real.pi
          let roll_accel := atan2 d.ay d.az * 180 / Real.pi
          (0.96 * pitch_gyro + (1 - 0.96) * pitch_accel,
           yaw_gyro,
           0.96 * roll_gyro + (1 - 0.96) * roll_accel)
        else
          (pitch_gyro, yaw_gyro, roll_gyro)
      { s with
          pitch := wrap_angle triple.1
          yaw := wrap_angle triple.2.1
          roll := wrap_angle triple.2.2
          last_time := now }

end HeadTracker

/-- The states of `HeadTracker` reachable from a freshly constructed
tracker by any sequence of `calibrate_gyroscope`, `update`, `zero_view`
and `reset_calibration` calls. -/
inductive Reachable : HeadTracker → Prop
  | init (t : ℝ) : Reachable (HeadTracker.init t)
  | calibrate {s : HeadTracker} (d : IMUData) :
      Reachable s → Reachable (s.calibrate_gyroscope d).1
  | update {s : HeadTracker} (d : IMUData) (now : ℝ) :
      Reachable s → Reachable (s.update d now)
  | zero {s : HeadTracker} : Reachable s → Reachable s.zero_view
  | reset {s : HeadTracker} : Reachable s → Reachable s.reset_calibration

/-- The constant sample of the gravity-aligned stability scenario:
zero gyro rates (equal to the zero bias) and `(ax, ay, az) = (0, 0, -1)`. -/
noncomputable def gravSample : IMUData where
  gx := 0
  gy := 0
  gz := 0
  ax := 0
  ay := 0
  az := -1

/-- The tracker state right after calibration completes with zero bias:
`is_calibrated` true, zero biases and angles, `last_time` cleared to the
unset sentinel `0` (as `calibrate_gyroscope` leaves it). -/
noncomputable def calibratedZero : HeadTracker :=
  { HeadTracker.init 0 with is_calibrated := true }

/-- The gravity-aligned stability run: starting from `calibratedZero`,
feed `gravSample` through `update` at the fixed positive interval `dt`
(call `n` happens at time `n * dt`). -/
noncomputable def driftState (dt : ℝ) : Nat → HeadTracker
  | 0 => calibratedZero
  | n + 1 => (driftState dt n).update gravSample (((n : ℝ) + 1) * dt)

/-!  General lemmas about the embedded definitions. -/

theorem le32_encodeLE32 {p : Nat} (h : p < 2 ^ 32) : le32 (encodeLE32 p) = p := by
  simp only [encodeLE32, le32, List.foldr]
  omega

theorem decode_window (p0 p1 p2 p3 p4 p5 : Nat)
    (h0 : p0 < 2 ^ 32) (h1 : p1 < 2 ^ 32) (h2 : p2 < 2 ^ 32)
    (h3 : p3 < 2 ^ 32) (h4 : p4 < 2 ^ 32) (h5 : p5 < 2 ^ 32) :
    IMUReader.decode_imu_data
      (encodeLE32 p0 ++ (encodeLE32 p1 ++ (encodeLE32 p2 ++
        (encodeLE32 p3 ++ (encodeLE32 p4 ++ encodeLE32 p5))))) =
    some { ax := p0, ay := p1, az := p2, gz := p3, gy := p4, gx := p5 } := by
  simp only [IMUReader.decode_imu_data, encodeLE32, le32, List.cons_append, List.nil_append,
    List.length_cons, List.length_nil, List.drop, List.take, List.foldr]
  norm_num
  refine ⟨?_, ?_, ?_, ?_, ?_, ?_⟩ <;> omega

theorem process_mkFrame (sid pre post tail : List Nat) (p0 p1 p2 p3 p4 p5 : Nat)
    (hsid : sid.length = 8) (hpre : pre.length = 20)
    (hpost : post.length = 20) (htail : tail.length = 31)
    (h0 : p0 < 2 ^ 32) (h1 : p1 < 2 ^ 32) (h2 : p2 < 2 ^ 32)
    (h3 : p3 < 2 ^ 32) (h4 : p4 < 2 ^ 32) (h5 : p5 < 2 ^ 32) :
    IMUReader.process_message (mkFrame sid pre post tail p0 p1 p2 p3 p4 p5) =
    some { ax := p0, ay := p1, az := p2, gz := p3, gy := p4, gx := p5 } := by
  have hW : (encodeLE32 p0 ++ (encodeLE32 p1 ++ (encodeLE32 p2 ++
      (encodeLE32 p3 ++ (encodeLE32 p4 ++ encodeLE32 p5))))).length = 24 := by
    simp [encodeLE32]
  have hmk : mkFrame sid pre post tail p0 p1 p2 p3 p4 p5 =
      (HEADER ++ sid) ++
        ((pre ++ ((encodeLE32 p0 ++ (encodeLE32 p1 ++ (encodeLE32 p2 ++
          (encodeLE32 p3 ++ (encodeLE32 p4 ++ encodeLE32 p5))))) ++
            (post ++ SENSOR_MSG))) ++ (tail ++ FOOTER)) := by
    simp [mkFrame, List.append_assoc]
  have hlen14 : (HEADER ++ sid).length = 14 := by simp [HEADER, hsid]
  have hMID : (pre ++ ((encodeLE32 p0 ++ (encodeLE32 p1 ++ (encodeLE32 p2 ++
      (encodeLE32 p3 ++ (encodeLE32 p4 ++ encodeLE32 p5))))) ++
        (post ++ SENSOR_MSG))).length = 70 := by
    simp [encodeLE32, hpre, hpost, SENSOR_MSG]
  have hlen : (mkFrame sid pre post tail p0 p1 p2 p3 p4 p5).length = 134 := by
    rw [hmk]
    simp [HEADER, FOOTER, SENSOR_MSG, encodeLE32, hsid, hpre, hpost, htail]
  have hstrip : IMUReader.stripPayload (mkFrame sid pre post tail p0 p1 p2 p3 p4 p5) =
      pre ++ ((encodeLE32 p0 ++ (encodeLE32 p1 ++ (encodeLE32 p2 ++
        (encodeLE32 p3 ++ (encodeLE32 p4 ++ encodeLE32 p5))))) ++
          (post ++ SENSOR_MSG)) := by
    unfold IMUReader.stripPayload
    rw [hlen, hmk, List.drop_left' hlen14, (by norm_num : (134 : Nat) - 64 = 70),
      List.take_left' hMID]
  have hwin : IMUReader.numericWindow (pre ++ ((encodeLE32 p0 ++ (encodeLE32 p1 ++
      (encodeLE32 p2 ++ (encodeLE32 p3 ++ (encodeLE32 p4 ++ encodeLE32 p5))))) ++
        (post ++ SENSOR_MSG))) =
      encodeLE32 p0 ++ (encodeLE32 p1 ++ (encodeLE32 p2 ++
        (encodeLE32 p3 ++ (encodeLE32 p4 ++ encodeLE32 p5)))) := by
    unfold IMUReader.numericWindow
    rw [hMID, List.drop_left' hpre, (by norm_num : (70 : Nat) - 46 = 24),
      List.take_left' hW]
  have cond1 : ¬ ((mkFrame sid pre post tail p0 p1 p2 p3 p4 p5).length <
      HEADER.length + 8 + FOOTER.length + 31) := by
    rw [hlen]; norm_num [HEADER, FOOTER]
  have cond2 : ¬ ¬ (SENSOR_MSG <:+ pre ++ ((encodeLE32 p0 ++ (encodeLE32 p1 ++
      (encodeLE32 p2 ++ (encodeLE32 p3 ++ (encodeLE32 p4 ++ encodeLE32 p5))))) ++
        (post ++ SENSOR_MSG))) := by
    rw [not_not]
    exact ((List.suffix_append post SENSOR_MSG).trans
      (List.suffix_append _ _)).trans (List.suffix_append _ _)
  have cond3 : ¬ ((pre ++ ((encodeLE32 p0 ++ (encodeLE32 p1 ++ (encodeLE32 p2 ++
      (encodeLE32 p3 ++ (encodeLE32 p4 ++ encodeLE32 p5))))) ++
        (post ++ SENSOR_MSG))).length < DATA_START_OFFSET + DATA_END_ABS) := by
    rw [hMID]; norm_num [DATA_START_OFFSET, DATA_END_ABS]
  simp only [IMUReader.process_message, hstrip]
  rw [if_neg cond1, if_neg cond2, if_neg cond3, hwin,
    decode_window p0 p1 p2 p3 p4 p5 h0 h1 h2 h3 h4 h5]

namespace HeadTracker

theorem wrapDown_le (a : ℝ) : wrapDown a ≤ 180 := by
  induction a using wrapDown.induct with
  | case1 a h ih => rw [wrapDown, if_pos h]; exact ih
  | case2 a h => rw [wrapDown, if_neg h]; linarith [not_lt.mp h]

theorem wrapDown_cases (a : ℝ) : -180 < wrapDown a ∨ wrapDown a = a := by
  induction a using wrapDown.induct with
  | case1 a h ih =>
    rw [wrapDown, if_pos h]
    rcases ih with h1 | h1
    · exact Or.inl h1
    · exact Or.inl (by rw [h1]; linarith)
  | case2 a h => rw [wrapDown, if_neg h]; exact Or.inr rfl

theorem wrapUp_ge (a : ℝ) : -180 ≤ wrapUp a := by
  induction a using wrapUp.induct with
  | case1 a h ih => rw [wrapUp, if_pos h]; exact ih
  | case2 a h => rw [wrapUp, if_neg h]; linarith [not_lt.mp h]

theorem wrapUp_cases (a : ℝ) : wrapUp a < 180 ∨ wrapUp a = a := by
  induction a using wrapUp.induct with
  | case1 a h ih =>
    rw [wrapUp, if_pos h]
    rcases ih with h1 | h1
    · exact Or.inl h1
    · exact Or.inl (by rw [h1]; linarith)
  | case2 a h => rw [wrapUp, if_neg h]; exact Or.inr rfl

theorem wrap_angle_mem (a : ℝ) : -180 ≤ wrap_angle a ∧ wrap_angle a ≤ 180 := by
  unfold wrap_angle
  constructor
  · exact wrapUp_ge _
  · rcases wrapUp_cases (wrapDown a) with h | h
    · linarith
    · rw [h]; exact wrapDown_le a

theorem wrap_angle_eq_self {a : ℝ} (h1 : -180 ≤ a) (h2 : a ≤ 180) : wrap_angle a = a := by
  unfold wrap_angle
  rw [wrapDown, if_neg (by linarith), wrapUp, if_neg (by linarith)]

theorem calibrate_already {s : HeadTracker} (d : IMUData) (h : s.is_calibrated = true) :
    s.calibrate_gyroscope d = (s, true) := by
  simp only [calibrate_gyroscope, h, if_true]

theorem calibrate_step_not_yet {s : HeadTracker} (d : IMUData) (h1 : s.is_calibrated = false)
    (h2 : s.calibration_count + 1 < s.calibration_target) :
    s.calibrate_gyroscope d =
      ({ s with
          calibration_samples := s.calibration_samples ++ [(d.gx, d.gy, d.gz)]
          calibration_count := s.calibration_count + 1 }, false) := by
  simp only [calibrate_gyroscope, h1]
  rw [if_neg (by simp), if_neg (by omega)]

theorem calibrate_step_done {s : HeadTracker} (d : IMUData) (h1 : s.is_calibrated = false)
    (h2 : s.calibration_target ≤ s.calibration_count + 1) :
    s.calibrate_gyroscope d =
      ({ s with
          calibration_samples := s.calibration_samples ++ [(d.gx, d.gy, d.gz)]
          calibration_count := s.calibration_count + 1
          gyro_bias_x := ((s.calibration_samples ++ [(d.gx, d.gy, d.gz)]).map
            (fun v => v.1)).sum / ((s.calibration_samples ++ [(d.gx, d.gy, d.gz)]).length : ℝ)
          gyro_bias_y := ((s.calibration_samples ++ [(d.gx, d.gy, d.gz)]).map
            (fun v => v.2.1)).sum / ((s.calibration_samples ++ [(d.gx, d.gy, d.gz)]).length : ℝ)
          gyro_bias_z := ((s.calibration_samples ++ [(d.gx, d.gy, d.gz)]).map
            (fun v => v.2.2)).sum / ((s.calibration_samples ++ [(d.gx, d.gy, d.gz)]).length : ℝ)
          is_calibrated := true
          pitch := 0
          yaw := 0
          roll := 0
          last_time := 0 }, true) := by
  simp only [calibrate_gyroscope, h1]
  rw [if_neg (by simp), if_pos (by omega)]

theorem calibrateList_partial (t : ℝ) (ds : List IMUData) (k : Nat) (hk : k < 500)
    (hlen : k ≤ ds.length) :
    calibrateList (init t) (ds.take k) =
      { init t with
          calibration_samples := (ds.take k).map (fun d => (d.gx, d.gy, d.gz))
          calibration_count := k } := by
  induction k with
  | zero => rfl
  | succ k ih =>
    have hk1 : k < 500 := by omega
    have hl1 : k ≤ ds.length := by omega
    have hget : ds[k]? = some ds[k] := List.getElem?_eq_getElem (by omega)
    rw [List.take_succ, hget]
    simp only [Option.toList_some]
    unfold calibrateList at ih ⊢
    rw [List.foldl_append, ih hk1 hl1]
    simp only [List.foldl_cons, List.foldl_nil]
    rw [calibrate_step_not_yet _ (by simp [init]) (by simp [init]; omega)]
    simp only [List.map_append, List.map_cons, List.map_nil]

theorem calibrateList_full (t : ℝ) (ds : List IMUData) (hlen : ds.length = 500) :
    calibrateList (init t) ds =
      { init t with
          calibration_samples := ds.map (fun d => (d.gx, d.gy, d.gz))
          calibration_count := 500
          gyro_bias_x := (ds.map (fun d => d.gx)).sum / 500
          gyro_bias_y := (ds.map (fun d => d.gy)).sum / 500
          gyro_bias_z := (ds.map (fun d => d.gz)).sum / 500
          is_calibrated := true
          pitch := 0
          yaw := 0
          roll := 0
          last_time := 0 } := by
  have h499 : ds[499]? = some ds[499] := List.getElem?_eq_getElem (by omega)
  have hds : ds = ds.take 499 ++ [ds[499]] := by
    have h1 : ds.take 500 = ds := List.take_of_length_le (by omega)
    have h2 : ds.take 500 = ds.take 499 ++ [ds[499]] := by
      rw [List.take_succ, h499]; rfl
    exact h1.symm.trans h2
  have hstep := calibrateList_partial t ds 499 (by omega) (by omega)
  conv_lhs => rw [hds]
  unfold calibrateList at hstep ⊢
  rw [List.foldl_append, hstep]
  simp only [List.foldl_cons, List.foldl_nil]
  rw [calibrate_step_done _ (by simp [init]) (by simp [init])]
  have hmaps : (ds.take 499).map (fun d => (d.gx, d.gy, d.gz)) ++
      [(ds[499].gx, ds[499].gy, ds[499].gz)] = ds.map (fun d => (d.gx, d.gy, d.gz)) := by
    conv_rhs => rw [hds]
    rw [List.map_append]
    simp only [List.map_cons, List.map_nil]
  have hcnt : ((ds.take 499).map (fun d => (d.gx, d.gy, d.gz)) ++
      [(ds[499].gx, ds[499].gy, ds[499].gz)]).length = 500 := by
    rw [hmaps]; simp [hlen]
  simp only [hmaps, hcnt]
  have hx : (ds.map (fun d => (d.gx, d.gy, d.gz))).map (fun v => v.1) =
      ds.map (fun d => d.gx) := by
    rw [List.map_map]; rfl
  have hy : (ds.map (fun d => (d.gx, d.gy, d.gz))).map (fun v => v.2.1) =
      ds.map (fun d => d.gy) := by
    rw [List.map_map]; rfl
  have hz : (ds.map (fun d => (d.gx, d.gy, d.gz))).map (fun v => v.2.2) =
      ds.map (fun d => d.gz) := by
    rw [List.map_map]; rfl
  simp only [hx, hy, hz, List.length_map, hlen]
  norm_num

end HeadTracker

theorem atan2_zero_one : atan2 0 1 = 0 := by
  unfold atan2
  norm_num [Complex.arg_one]

theorem atan2_zero_neg_one : atan2 0 (-1) = Real.pi := by
  unfold atan2
  norm_num [Complex.arg_neg_one]

namespace HeadTracker

theorem update_not_calibrated {s : HeadTracker} (d : IMUData) (now : ℝ)
    (h : s.is_calibrated = false) : s.update d now = s := by
  unfold update
  rw [if_pos (by simp [h])]

theorem update_primes {s : HeadTracker} (d : IMUData) (now : ℝ)
    (hc : s.is_calibrated = true) (hl : s.last_time = 0) :
    s.update d now = { s with last_time := now } := by
  unfold update
  rw [if_neg (by simp [hc]), if_pos hl]

theorem update_calib_fields (s : HeadTracker) (d : IMUData) (now : ℝ) :
    (s.update d now).calibration_count = s.calibration_count ∧
    (s.update d now).is_calibrated = s.is_calibrated ∧
    (s.update d now).calibration_samples = s.calibration_samples ∧
    (s.update d now).calibration_target = s.calibration_target := by
  unfold update
  split
  · exact ⟨rfl, rfl, rfl, rfl⟩
  · split
    · exact ⟨rfl, rfl, rfl, rfl⟩
    · exact ⟨rfl, rfl, rfl, rfl⟩

theorem update_angles_mem {s : HeadTracker} (d : IMUData) (now : ℝ)
    (hc : s.is_calibrated = true) (hl : s.last_time ≠ 0) :
    (-180 ≤ (s.update d now).pitch ∧ (s.update d now).pitch ≤ 180) ∧
    (-180 ≤ (s.update d now).yaw ∧ (s.update d now).yaw ≤ 180) ∧
    (-180 ≤ (s.update d now).roll ∧ (s.update d now).roll ≤ 180) := by
  unfold update
  rw [if_neg (by simp [hc]), if_neg hl]
  exact ⟨wrap_angle_mem _, wrap_angle_mem _, wrap_angle_mem _⟩

theorem update_grav {s : HeadTracker} (now : ℝ)
    (hc : s.is_calibrated = true) (hl : s.last_time ≠ 0)
    (hbx : s.gyro_bias_x = 0) (hby : s.gyro_bias_y = 0) (hbz : s.gyro_bias_z = 0) :
    s.update gravSample now =
      { s with
          pitch := wrap_angle (0.96 * s.pitch)
          yaw := wrap_angle s.yaw
          roll := wrap_angle (0.96 * s.roll + 7.2)
          last_time := now } := by
  unfold update
  rw [if_neg (by simp [hc]), if_neg hl]
  have hpi : Real.pi * 180 / Real.pi = 180 := by
    rw [mul_comm, mul_div_assoc, div_self Real.pi_ne_zero, mul_one]
  simp only [gravSample, hbx, hby, hbz, neg_zero]
  norm_num [atan2_zero_one, atan2_zero_neg_one, Real.sqrt_one, hpi, HeadTracker.mk.injEq]

end HeadTracker

theorem drift_inv (dt : ℝ) (hdt : 0 < dt) (n : Nat) :
    (driftState dt (n + 1)).is_calibrated = true ∧
    (driftState dt (n + 1)).gyro_bias_x = 0 ∧
    (driftState dt (n + 1)).gyro_bias_y = 0 ∧
    (driftState dt (n + 1)).gyro_bias_z = 0 ∧
    (driftState dt (n + 1)).last_time = ((n : ℝ) + 1) * dt ∧
    (driftState dt (n + 1)).pitch = 0 ∧
    (driftState dt (n + 1)).yaw = 0 ∧
    (driftState dt (n + 1)).roll = 180 - 180 * (0.96 : ℝ) ^ n := by
  induction n with
  | zero =>
    have h : driftState dt (0 + 1) =
        { calibratedZero with last_time := (((0 : ℕ) : ℝ) + 1) * dt } := by
      exact HeadTracker.update_primes _ _ rfl rfl
    rw [h]
    norm_num [calibratedZero, HeadTracker.init]
  | succ n ih =>
    obtain ⟨hc, hbx, hby, hbz, hlt, hp, hy, hr⟩ := ih
    have hl : (driftState dt (n + 1)).last_time ≠ 0 := by
      rw [hlt]
      positivity
    have hstep : driftState dt (n + 1 + 1) =
        { driftState dt (n + 1) with
            pitch := HeadTracker.wrap_angle (0.96 * (driftState dt (n + 1)).pitch)
            yaw := HeadTracker.wrap_angle (driftState dt (n + 1)).yaw
            roll := HeadTracker.wrap_angle (0.96 * (driftState dt (n + 1)).roll + 7.2)
            last_time := (((n + 1 : ℕ) : ℝ) + 1) * dt } :=
      HeadTracker.update_grav _ hc hl hbx hby hbz
    rw [hstep]
    have hpow0 : (0 : ℝ) ≤ (0.96 : ℝ) ^ n := by positivity
    have hpow1 : (0.96 : ℝ) ^ n ≤ 1 := pow_le_one₀ (by norm_num) (by norm_num)
    have hpow0s : (0 : ℝ) ≤ (0.96 : ℝ) ^ (n + 1) := by positivity
    have hpow1s : (0.96 : ℝ) ^ (n + 1) ≤ 1 := pow_le_one₀ (by norm_num) (by norm_num)
    refine ⟨hc, hbx, hby, hbz, by push_cast; ring, ?_, ?_, ?_⟩
    · rw [hp]
      norm_num [HeadTracker.wrap_angle_eq_self]
    · rw [hy]
      norm_num [HeadTracker.wrap_angle_eq_self]
    · rw [hr]
      have harg : 0.96 * (180 - 180 * (0.96 : ℝ) ^ n) + 7.2 = 180 - 180 * (0.96 : ℝ) ^ (n + 1) := by
        ring
      rw [harg]
      exact HeadTracker.wrap_angle_eq_self (by nlinarith) (by nlinarith)

end IMURepo

namespace IMURepo

theorem drift_pitch_eq (dt : ℝ) (hdt : 0 < dt) (n : Nat) : (driftState dt n).pitch = 0 := by
  cases n with
  | zero => rfl
  | succ n => exact (drift_inv dt hdt n).2.2.2.2.2.1

theorem drift_roll_bounds (dt : ℝ) (hdt : 0 < dt) (n : Nat) :
    0 ≤ (driftState dt n).roll ∧ (driftState dt n).roll < 180 := by
  cases n with
  | zero => norm_num [driftState, calibratedZero, HeadTracker.init]
  | succ n =>
    rw [(drift_inv dt hdt n).2.2.2.2.2.2.2]
    have h0 : (0 : ℝ) < (0.96 : ℝ) ^ n := by positivity
    have h1 : (0.96 : ℝ) ^ n ≤ 1 := pow_le_one₀ (by norm_num) (by norm_num)
    constructor <;> nlinarith

theorem drift_roll_tendsto (dt : ℝ) (hdt : 0 < dt) :
    Filter.Tendsto (fun n => (driftState dt n).roll) Filter.atTop (nhds 180) := by
  have h1 : Filter.Tendsto (fun n : ℕ => 180 - 180 * (0.96 : ℝ) ^ n) Filter.atTop
      (nhds (180 - 180 * 0)) :=
    Filter.Tendsto.sub tendsto_const_nhds
      (Filter.Tendsto.const_mul 180
        (tendsto_pow_atTop_nhds_zero_of_lt_one (by norm_num) (by norm_num)))
  have h2 := h1.congr (fun n => ((drift_inv dt hdt n).2.2.2.2.2.2.2).symm)
  rw [(by norm_num : (180 : ℝ) - 180 * 0 = 180)] at h2
  exact (Filter.tendsto_add_atTop_iff_nat 1).mp h2

theorem drift_pitch_tendsto (dt : ℝ) (hdt : 0 < dt) :
    Filter.Tendsto (fun n => (driftState dt n).pitch) Filter.atTop (nhds 0) := by
  have h1 : Filter.Tendsto (fun _ : ℕ => (0 : ℝ)) Filter.atTop (nhds 0) := tendsto_const_nhds
  exact h1.congr (fun n => (drift_pitch_eq dt hdt n).symm)

theorem bfind_eq_some_iff {pat l : List Nat} (hp : pat ≠ []) {i : Nat} :
    bfind pat l = some i ↔ (pat <+: l.drop i ∧ ∀ j, j < i → ¬ pat <+: l.drop j) := by
  induction l generalizing i with
  | nil =>
    simp [bfind, hp]
  | cons a t ih =>
    by_cases hc : pat <+: a :: t
    · rw [bfind, if_pos hc]
      constructor
      · intro h
        have hi : i = 0 := by simpa using h.symm
        subst hi
        exact ⟨by simpa using hc, by omega⟩
      · rintro ⟨h1, h2⟩
        have hi : i = 0 := by
          by_contra hne
          exact h2 0 (by omega) (by simpa using hc)
        subst hi
        rfl
    · rw [bfind, if_neg hc]
      cases i with
      | zero =>
        simp only [List.drop_zero]
        constructor
        · intro h
          obtain ⟨k, hk1, hk2⟩ := Option.map_eq_some'.mp h
          omega
        · rintro ⟨h1, _⟩
          exact absurd h1 hc
      | succ k =>
        constructor
        · intro h
          obtain ⟨m, hm1, hm2⟩ := Option.map_eq_some'.mp h
          have hmk : m = k := by omega
          subst hmk
          obtain ⟨h1, h2⟩ := ih.mp hm1
          refine ⟨by simpa using h1, ?_⟩
          intro j hj
          cases j with
          | zero => simpa using hc
          | succ j' => simpa using h2 j' (by omega)
        · rintro ⟨h1, h2⟩
          have hm : bfind pat t = some k := by
            refine ih.mpr ⟨by simpa using h1, ?_⟩
            intro j hj
            have := h2 (j + 1) (by omega)
            simpa using this
          simp [hm]

theorem bfind_some_isPre {pat l : List Nat} {i : Nat} (hp : pat ≠ [])
    (h : bfind pat l = some i) : pat <+: l.drop i :=
  ((bfind_eq_some_iff hp).mp h).1

theorem bfind_some_bound {pat l : List Nat} {i : Nat} (hp : pat ≠ [])
    (h : bfind pat l = some i) : i + pat.length ≤ l.length := by
  have h1 := (bfind_some_isPre hp h).length_le
  simp only [List.length_drop] at h1
  have h2 : pat.length ≠ 0 := by
    intro h0
    exact hp (List.length_eq_zero.mp h0)
  omega

theorem drop_append_within {b c : List Nat} {i : Nat} (h : i ≤ b.length) :
    (b ++ c).drop i = b.drop i ++ c := by
  rw [List.drop_append_eq_append_drop, Nat.sub_eq_zero_of_le h, List.drop_zero]

theorem prefix_append_within {pat y c : List Nat} (h : pat <+: y ++ c)
    (hlen : pat.length ≤ y.length) : pat <+: y := by
  rw [List.prefix_iff_eq_take] at h ⊢
  rw [h, List.take_append_eq_append_take, Nat.sub_eq_zero_of_le hlen,
    List.take_zero, List.append_nil]
  have hl2 : (List.take pat.length y).length = pat.length := by
    simp only [List.length_take]
    omega
  rw [hl2]

theorem bfind_append {pat b : List Nat} {i : Nat} (hp : pat ≠ [])
    (h : bfind pat b = some i) (c : List Nat) : bfind pat (b ++ c) = some i := by
  obtain ⟨h1, h2⟩ := (bfind_eq_some_iff hp).mp h
  have hib : i + pat.length ≤ b.length := bfind_some_bound hp h
  refine (bfind_eq_some_iff hp).mpr ⟨?_, ?_⟩
  · rw [drop_append_within (by omega)]
    exact h1.trans (List.prefix_append _ _)
  · intro j hj hcon
    apply h2 j hj
    rw [drop_append_within (by omega)] at hcon
    exact prefix_append_within hcon (by simp only [List.length_drop]; omega)


theorem processBuffer_none1 {buf : List Nat} (h : bfind HEADER buf = none) :
    processBuffer buf = ([], buf) := by
  rw [processBuffer]
  split
  · rfl
  · simp_all

theorem processBuffer_none2 {buf : List Nat} {hp : Nat} (h1 : bfind HEADER buf = some hp)
    (h2 : bfind FOOTER (buf.drop hp) = none) : processBuffer buf = ([], buf) := by
  rw [processBuffer]
  split
  · rfl
  · split
    · rfl
    · simp_all

theorem processBuffer_step {buf : List Nat} {hp f : Nat} (h1 : bfind HEADER buf = some hp)
    (h2 : bfind FOOTER (buf.drop hp) = some f) :
    processBuffer buf =
      (((buf.drop hp).take (f + 19)) :: (processBuffer (buf.drop (hp + (f + 19)))).1,
       (processBuffer (buf.drop (hp + (f + 19)))).2) := by
  rw [processBuffer]
  split
  · simp_all
  · split
    · simp_all
    · simp_all


theorem HEADER_ne_nil : HEADER ≠ [] := by simp [HEADER]

theorem FOOTER_ne_nil : FOOTER ≠ [] := by simp [FOOTER]

theorem processBuffer_append (b : List Nat) : ∀ c : List Nat,
    processBuffer (b ++ c) =
      ((processBuffer b).1 ++ (processBuffer ((processBuffer b).2 ++ c)).1,
       (processBuffer ((processBuffer b).2 ++ c)).2) := by
  induction b using processBuffer.induct with
  | case1 buf hh =>
    intro c
    rw [processBuffer_none1 hh]
    rfl
  | case2 buf hp hh hf =>
    intro c
    rw [processBuffer_none2 hh hf]
    rfl
  | case3 buf hp hh f hf ih =>
    intro c
    have hhb : hp + HEADER.length ≤ buf.length := bfind_some_bound HEADER_ne_nil hh
    have hfb : f + FOOTER.length ≤ (buf.drop hp).length := bfind_some_bound FOOTER_ne_nil hf
    simp only [List.length_drop, HEADER, FOOTER] at hhb hfb
    have hh2 : bfind HEADER (buf ++ c) = some hp := bfind_append HEADER_ne_nil hh c
    have hdrop : (buf ++ c).drop hp = buf.drop hp ++ c := drop_append_within (by norm_num at hhb ⊢; omega)
    have hf2 : bfind FOOTER ((buf ++ c).drop hp) = some f := by
      rw [hdrop]
      exact bfind_append FOOTER_ne_nil hf c
    have hfb2 : f + 19 ≤ buf.length - hp := by norm_num at hfb; omega
    have htake : ((buf ++ c).drop hp).take (f + 19) = (buf.drop hp).take (f + 19) := by
      rw [hdrop, List.take_append_eq_append_take, Nat.sub_eq_zero_of_le
        (by simp only [List.length_drop]; omega), List.take_zero, List.append_nil]
    have hdrop2 : (buf ++ c).drop (hp + (f + 19)) = buf.drop (hp + (f + 19)) ++ c :=
      drop_append_within (by omega)
    rw [processBuffer_step hh2 hf2, processBuffer_step hh hf, htake, hdrop2, ih c]
    simp


theorem processBuffer_residual (buf : List Nat) :
    processBuffer (processBuffer buf).2 = ([], (processBuffer buf).2) := by
  induction buf using processBuffer.induct with
  | case1 buf hh =>
    rw [processBuffer_none1 hh]
    exact processBuffer_none1 hh
  | case2 buf hp hh hf =>
    rw [processBuffer_none2 hh hf]
    exact processBuffer_none2 hh hf
  | case3 buf hp hh f hf ih =>
    rw [processBuffer_step hh hf]
    exact ih

theorem feedSeq_join (buf : List Nat) (chunks : List (List Nat))
    (hq : processBuffer buf = ([], buf)) :
    feedSeq buf chunks = processBuffer (buf ++ chunks.flatten) := by
  induction chunks generalizing buf with
  | nil =>
    rw [feedSeq, List.flatten_nil, List.append_nil, hq]
  | cons ch rest ih =>
    rw [feedSeq]
    have hq2 : processBuffer (processBuffer (buf ++ ch)).2 = ([], (processBuffer (buf ++ ch)).2) :=
      processBuffer_residual (buf ++ ch)
    rw [ih _ hq2]
    rw [List.flatten_cons, ← List.append_assoc]
    rw [processBuffer_append (buf ++ ch) rest.flatten]

/-- Auxiliary: decoding only reads the first 24 bytes of the window. -/
theorem decode_take_24 {bs : List Nat} (h : 24 ≤ bs.length) :
    IMUReader.decode_imu_data (bs.take 24) = IMUReader.decode_imu_data bs := by
  unfold IMUReader.decode_imu_data
  rw [List.length_take, Nat.min_eq_left h]
  rw [if_neg (by omega), if_neg (by omega), if_neg (by omega), if_neg (by omega)]
  simp only [List.drop_zero, Option.some.injEq, IMUData32.mk.injEq]
  refine ⟨?_, ?_, ?_, ?_, ?_, ?_⟩ <;>
    · congr 1
      norm_num [List.drop_take, List.take_take]

/-- C1: for six finite float32 bit patterns placed as the little-endian
numeric window of a frame built per the wire format, `process_message`
returns the sample with exactly those bit patterns, under the axis
permutation `ax=v0, ay=v1, az=v2, gz=v3, gy=v4, gx=v5` (bit-exact float32
round-trip). -/
theorem C1_roundtrip_bit_exact (sid pre post tail : List Nat) (p0 p1 p2 p3 p4 p5 : Nat)
    (hsid : sid.length = 8) (hpre : pre.length = 20)
    (hpost : post.length = 20) (htail : tail.length = 31)
    (h0 : p0 < 2 ^ 32) (h1 : p1 < 2 ^ 32) (h2 : p2 < 2 ^ 32)
    (h3 : p3 < 2 ^ 32) (h4 : p4 < 2 ^ 32) (h5 : p5 < 2 ^ 32)
    (hf0 : isFinite32 p0) (hf1 : isFinite32 p1) (hf2 : isFinite32 p2)
    (hf3 : isFinite32 p3) (hf4 : isFinite32 p4) (hf5 : isFinite32 p5) :
    IMUReader.process_message (mkFrame sid pre post tail p0 p1 p2 p3 p4 p5) =
      some { ax := p0, ay := p1, az := p2, gz := p3, gy := p4, gx := p5 } :=
  process_mkFrame sid pre post tail p0 p1 p2 p3 p4 p5 hsid hpre hpost htail h0 h1 h2 h3 h4 h5

/-- C1 witness: a concrete frame with six distinct finite float32 patterns
round-trips bit-exactly. -/
theorem C1_witness :
    IMUReader.process_message (mkFrame (List.replicate 8 0) (List.replicate 20 1)
        (List.replicate 20 2) (List.replicate 31 3)
        0x3f800000 0x3f8ccccd 0xbf800000 0x40490fdb 0x00000000 0xc0a00000) =
      some { ax := 0x3f800000, ay := 0x3f8ccccd, az := 0xbf800000,
             gz := 0x40490fdb, gy := 0x00000000, gx := 0xc0a00000 } :=
  C1_roundtrip_bit_exact _ _ _ _ _ _ _ _ _ _
    (by simp) (by simp) (by simp) (by simp)
    (by norm_num) (by norm_num) (by norm_num) (by norm_num) (by norm_num) (by norm_num)
    (by decide) (by decide) (by decide) (by decide) (by decide) (by decide)


/-- C2: feeding exactly 500 samples from a fresh tracker leaves
`is_calibrated` false on every proper prefix, makes it true on the 500th
call, sets each bias exactly once to the arithmetic mean of the fed values
on that axis (biases are still 0 on every proper prefix), zeroes pitch,
yaw and roll, sets `last_time` to the unset sentinel 0, and freezes the
state (further calls return the same state and true). -/
theorem C2_calibration_determinism (t : ℝ) (ds : List IMUData) (hlen : ds.length = 500) :
    (∀ k, k < 500 →
      (HeadTracker.calibrateList (HeadTracker.init t) (ds.take k)).is_calibrated = false ∧
      (HeadTracker.calibrateList (HeadTracker.init t) (ds.take k)).gyro_bias_x = 0 ∧
      (HeadTracker.calibrateList (HeadTracker.init t) (ds.take k)).gyro_bias_y = 0 ∧
      (HeadTracker.calibrateList (HeadTracker.init t) (ds.take k)).gyro_bias_z = 0) ∧
    (HeadTracker.calibrateList (HeadTracker.init t) ds).is_calibrated = true ∧
    (HeadTracker.calibrateList (HeadTracker.init t) ds).gyro_bias_x = (ds.map (fun d => d.gx)).sum / 500 ∧
    (HeadTracker.calibrateList (HeadTracker.init t) ds).gyro_bias_y = (ds.map (fun d => d.gy)).sum / 500 ∧
    (HeadTracker.calibrateList (HeadTracker.init t) ds).gyro_bias_z = (ds.map (fun d => d.gz)).sum / 500 ∧
    (HeadTracker.calibrateList (HeadTracker.init t) ds).pitch = 0 ∧
    (HeadTracker.calibrateList (HeadTracker.init t) ds).yaw = 0 ∧
    (HeadTracker.calibrateList (HeadTracker.init t) ds).roll = 0 ∧
    (HeadTracker.calibrateList (HeadTracker.init t) ds).last_time = 0 ∧
    (∀ d, (HeadTracker.calibrateList (HeadTracker.init t) ds).calibrate_gyroscope d =
      (HeadTracker.calibrateList (HeadTracker.init t) ds, true)) := by
  have hfull := HeadTracker.calibrateList_full t ds hlen
  refine ⟨?_, ?_, ?_, ?_, ?_, ?_, ?_, ?_, ?_, ?_⟩
  · intro k hk
    rw [HeadTracker.calibrateList_partial t ds k hk (by omega)]
    exact ⟨rfl, rfl, rfl, rfl⟩
  · rw [hfull]
  · rw [hfull]
  · rw [hfull]
  · rw [hfull]
  · rw [hfull]
  · rw [hfull]
  · rw [hfull]
  · rw [hfull]
  · intro d
    apply HeadTracker.calibrate_already
    rw [hfull]

set_option maxRecDepth 4000 in
/-- C2 witness: 500 constant samples with gx = 2 make the tracker
calibrated with `gyro_bias_x` exactly 2. -/
theorem C2_witness :
    (List.replicate 500 ({ gx := 2, gy := 0, gz := 0, ax := 0, ay := 0, az := -1 } :
        IMUData)).length = 500 ∧
    (HeadTracker.calibrateList (HeadTracker.init 7)
      (List.replicate 500 { gx := 2, gy := 0, gz := 0, ax := 0, ay := 0, az := -1 })).is_calibrated
        = true ∧
    (HeadTracker.calibrateList (HeadTracker.init 7)
      (List.replicate 500 { gx := 2, gy := 0, gz := 0, ax := 0, ay := 0, az := -1 })).gyro_bias_x
        = 2 := by
  have h := C2_calibration_determinism 7
    (List.replicate 500 { gx := 2, gy := 0, gz := 0, ax := 0, ay := 0, az := -1 }) (by simp)
  refine ⟨by simp, h.2.1, ?_⟩
  rw [h.2.2.1]
  simp only [List.map_replicate, List.sum_replicate, nsmul_eq_mul]
  norm_num


/-- C3 counterexample: in the gravity-aligned scenario with
`(ax, ay, az) = (0, 0, -1)` and zero bias-corrected rates (run at fixed
`dt = 1`), it is not the case that pitch and roll both converge toward 0:
the roll sequence converges to 180 instead, because
`atan2(ay, az) = atan2(0, -1)` is 180 degrees. -/
theorem C3_counterexample :
    ¬ (Filter.Tendsto (fun n => (driftState 1 n).pitch) Filter.atTop (nhds 0) ∧
       Filter.Tendsto (fun n => (driftState 1 n).roll) Filter.atTop (nhds 0)) := by
  intro h
  have h180 := tendsto_nhds_unique h.2 (drift_roll_tendsto 1 one_pos)
  norm_num at h180

/-- C3 amended: for any fixed positive `dt`, pitch converges toward 0 (it
is identically 0) and stays bounded, and roll stays bounded in `[0, 180)`
with no unbounded drift — but roll converges toward 180 (the
accelerometer roll angle of `(ay, az) = (0, -1)`), not toward 0. -/
theorem C3_amended_gravity_stability (dt : ℝ) (hdt : 0 < dt) :
    (∀ n, (driftState dt n).pitch = 0) ∧
    Filter.Tendsto (fun n => (driftState dt n).pitch) Filter.atTop (nhds 0) ∧
    (∀ n, 0 ≤ (driftState dt n).roll ∧ (driftState dt n).roll < 180) ∧
    Filter.Tendsto (fun n => (driftState dt n).roll) Filter.atTop (nhds 180) :=
  ⟨drift_pitch_eq dt hdt, drift_pitch_tendsto dt hdt,
   drift_roll_bounds dt hdt, drift_roll_tendsto dt hdt⟩

/-- C3 witness: the amended statement at the concrete interval `dt = 1`. -/
theorem C3_witness :
    (0 : ℝ) < 1 ∧
    ((∀ n, (driftState 1 n).pitch = 0) ∧
     Filter.Tendsto (fun n => (driftState 1 n).pitch) Filter.atTop (nhds 0) ∧
     (∀ n, 0 ≤ (driftState 1 n).roll ∧ (driftState 1 n).roll < 180) ∧
     Filter.Tendsto (fun n => (driftState 1 n).roll) Filter.atTop (nhds 180)) :=
  ⟨by norm_num, C3_amended_gravity_stability 1 (by norm_num)⟩

/-- C4 counterexample: a frame whose numeric window starts with the
float32 bit pattern `0x7f800000` (+infinity, a non-finite value) is not
dropped: `process_message` returns a sample carrying that non-finite
pattern, not `none`. -/
theorem C4_counterexample :
    IMUReader.process_message (mkFrame (List.replicate 8 0) (List.replicate 20 0)
        (List.replicate 20 0) (List.replicate 31 0) 0x7f800000 0 0 0 0 0) =
      some { ax := 0x7f800000, ay := 0, az := 0, gz := 0, gy := 0, gx := 0 } ∧
    ¬ isFinite32 0x7f800000 := by
  constructor
  · exact process_mkFrame _ _ _ _ _ _ _ _ _ _ (by simp) (by simp) (by simp) (by simp)
      (by norm_num) (by norm_num) (by norm_num) (by norm_num) (by norm_num) (by norm_num)
  · decide

/-- C4 amended: `decode_imu_data` performs no finiteness check
(`struct.unpack` does not fail on non-finite float32 values and the code
never inspects them), so a structurally well-formed frame whose window
holds non-finite patterns still decodes to a sample carrying those
patterns bit-exactly. -/
theorem C4_amended_nonfinite_passthrough (sid pre post tail : List Nat)
    (p0 p1 p2 p3 p4 p5 : Nat)
    (hsid : sid.length = 8) (hpre : pre.length = 20)
    (hpost : post.length = 20) (htail : tail.length = 31)
    (h0 : p0 < 2 ^ 32) (h1 : p1 < 2 ^ 32) (h2 : p2 < 2 ^ 32)
    (h3 : p3 < 2 ^ 32) (h4 : p4 < 2 ^ 32) (h5 : p5 < 2 ^ 32)
    (hnf : ¬ isFinite32 p0 ∨ ¬ isFinite32 p1 ∨ ¬ isFinite32 p2 ∨
           ¬ isFinite32 p3 ∨ ¬ isFinite32 p4 ∨ ¬ isFinite32 p5) :
    IMUReader.process_message (mkFrame sid pre post tail p0 p1 p2 p3 p4 p5) =
      some { ax := p0, ay := p1, az := p2, gz := p3, gy := p4, gx := p5 } :=
  process_mkFrame sid pre post tail p0 p1 p2 p3 p4 p5 hsid hpre hpost htail h0 h1 h2 h3 h4 h5

/-- C4 witness: the amended statement at a concrete frame carrying a NaN
pattern `0x7fc00000` in the `ay` slot. -/
theorem C4_witness :
    IMUReader.process_message (mkFrame (List.replicate 8 4) (List.replicate 20 5)
        (List.replicate 20 6) (List.replicate 31 7) 0 0x7fc00000 0 0 0 0) =
      some { ax := 0, ay := 0x7fc00000, az := 0, gz := 0, gy := 0, gx := 0 } :=
  C4_amended_nonfinite_passthrough _ _ _ _ _ _ _ _ _ _
    (by simp) (by simp) (by simp) (by simp)
    (by norm_num) (by norm_num) (by norm_num) (by norm_num) (by norm_num) (by norm_num)
    (Or.inr (Or.inl (by decide)))


set_option maxRecDepth 10000 in
/-- C5 counterexample: `frame71` decodes to a sample, yet its extracted
numeric window `data[20:-26]` is 25 bytes long, not 24: for payloads
longer than 70 bytes the two placements of the specification (24 bytes at
offset 20; ending 26 bytes before the payload end) disagree. -/
theorem C5_counterexample :
    IMUReader.process_message frame71 =
      some { ax := 0, ay := 0, az := 0, gz := 0, gy := 0, gx := 0 } ∧
    (IMUReader.numericWindow (IMUReader.stripPayload frame71)).length ≠ 24 := by
  constructor
  · decide
  · decide

/-- C5 amended: for every frame that decodes to a sample, the numeric
window runs from offset 20 of the stripped payload to 26 bytes before its
end, so its length is `payload length - 46 ≥ 24`; only its first 24 bytes
are decoded (they are the 24 bytes at offset 20, the sample is already
determined by them), and the window is exactly 24 bytes iff the payload
is exactly 70 bytes. -/
theorem C5_amended_window_placement (m : List Nat) (s : IMUData32)
    (h : IMUReader.process_message m = some s) :
    70 ≤ (IMUReader.stripPayload m).length ∧
    (IMUReader.numericWindow (IMUReader.stripPayload m)).length =
      (IMUReader.stripPayload m).length - 46 ∧
    (IMUReader.numericWindow (IMUReader.stripPayload m)).take 24 =
      ((IMUReader.stripPayload m).drop 20).take 24 ∧
    IMUReader.decode_imu_data
      ((IMUReader.numericWindow (IMUReader.stripPayload m)).take 24) = some s ∧
    ((IMUReader.numericWindow (IMUReader.stripPayload m)).length = 24 ↔
      (IMUReader.stripPayload m).length = 70) := by
  simp only [IMUReader.process_message] at h
  split at h
  · exact absurd h (by simp)
  · split at h
    · exact absurd h (by simp)
    · split at h
      · exact absurd h (by simp)
      · rename_i hlen hsfx hlen46
        simp only [DATA_START_OFFSET, DATA_END_ABS, not_lt] at hlen46
        have hwl : (IMUReader.numericWindow (IMUReader.stripPayload m)).length =
            (IMUReader.stripPayload m).length - 46 := by
          unfold IMUReader.numericWindow
          simp only [List.length_take, List.length_drop]
          omega
        have hw24 : 24 ≤ (IMUReader.numericWindow (IMUReader.stripPayload m)).length := by
          rw [IMUReader.decode_imu_data] at h
          split at h
          · exact absurd h (by simp)
          · rename_i hbig
            omega
        refine ⟨by omega, hwl, ?_, ?_, by omega⟩
        · unfold IMUReader.numericWindow
          rw [List.take_take]
          congr 1
          omega
        · rw [decode_take_24 hw24]
          exact h

set_option maxRecDepth 10000 in
/-- C5 witness: the amended statement at the concrete decodable frame
`frame71`. -/
theorem C5_witness :
    70 ≤ (IMUReader.stripPayload frame71).length ∧
    (IMUReader.numericWindow (IMUReader.stripPayload frame71)).length =
      (IMUReader.stripPayload frame71).length - 46 ∧
    (IMUReader.numericWindow (IMUReader.stripPayload frame71)).take 24 =
      ((IMUReader.stripPayload frame71).drop 20).take 24 ∧
    IMUReader.decode_imu_data
      ((IMUReader.numericWindow (IMUReader.stripPayload frame71)).take 24) =
      some { ax := 0, ay := 0, az := 0, gz := 0, gy := 0, gx := 0 } ∧
    ((IMUReader.numericWindow (IMUReader.stripPayload frame71)).length = 24 ↔
      (IMUReader.stripPayload frame71).length = 70) :=
  C5_amended_window_placement frame71
    { ax := 0, ay := 0, az := 0, gz := 0, gy := 0, gx := 0 }
    (by decide)


/-- C6 counterexample: `wrap_angle (-180) = -180`, which is not strictly
greater than -180, so the image of the wrap function is not contained in
the half-open interval `(-180, 180]`. -/
theorem C6_counterexample :
    HeadTracker.wrap_angle (-180 : ℝ) = -180 ∧
    ¬ (-180 < HeadTracker.wrap_angle (-180 : ℝ)) := by
  have h : HeadTracker.wrap_angle (-180 : ℝ) = -180 :=
    HeadTracker.wrap_angle_eq_self (by norm_num) (by norm_num)
  exact ⟨h, by rw [h]; norm_num⟩

/-- C6 amended: for every real input the wrap function lands in the
closed interval `[-180, 180]` (the lower endpoint is attained, e.g. at
-180, so the half-open guarantee fails); consequently pitch, yaw and roll
after an angle-integrating `update` call, and every component returned by
`get_relative_orientation`, lie in `[-180, 180]`. -/
theorem C6_amended_wrap_range (a : ℝ) (s : HeadTracker) (d : IMUData) (now : ℝ)
    (hc : s.is_calibrated = true) (hl : s.last_time ≠ 0) :
    (-180 ≤ HeadTracker.wrap_angle a ∧ HeadTracker.wrap_angle a ≤ 180) ∧
    ((-180 ≤ (s.update d now).pitch ∧ (s.update d now).pitch ≤ 180) ∧
     (-180 ≤ (s.update d now).yaw ∧ (s.update d now).yaw ≤ 180) ∧
     (-180 ≤ (s.update d now).roll ∧ (s.update d now).roll ≤ 180)) ∧
    ((-180 ≤ (HeadTracker.get_relative_orientation s).1 ∧
        (HeadTracker.get_relative_orientation s).1 ≤ 180) ∧
     (-180 ≤ (HeadTracker.get_relative_orientation s).2.1 ∧
        (HeadTracker.get_relative_orientation s).2.1 ≤ 180) ∧
     (-180 ≤ (HeadTracker.get_relative_orientation s).2.2 ∧
        (HeadTracker.get_relative_orientation s).2.2 ≤ 180)) :=
  ⟨HeadTracker.wrap_angle_mem a,
   HeadTracker.update_angles_mem d now hc hl,
   HeadTracker.wrap_angle_mem _, HeadTracker.wrap_angle_mem _, HeadTracker.wrap_angle_mem _⟩

/-- C6 witness: the amended statement at a concrete calibrated tracker
with a primed clock. -/
theorem C6_witness :
    ({ HeadTracker.init 0 with
        is_calibrated := true, last_time := 1 } : HeadTracker).is_calibrated = true ∧
    ({ HeadTracker.init 0 with
        is_calibrated := true, last_time := 1 } : HeadTracker).last_time ≠ 0 ∧
    (-180 ≤ HeadTracker.wrap_angle (5 : ℝ) ∧ HeadTracker.wrap_angle (5 : ℝ) ≤ 180) :=
  ⟨rfl, by norm_num [HeadTracker.init],
   (C6_amended_wrap_range 5 { HeadTracker.init 0 with is_calibrated := true, last_time := 1 }
      { gx := 0, gy := 0, gz := 0, ax := 0, ay := 0, az := 1 } 2 rfl
      (by norm_num [HeadTracker.init])).1⟩

/-- C7: the wrap function satisfies the fixed boundary convention
`wrap(180) = 180`, `wrap(181) = -179`, `wrap(-181) = 179`,
`wrap(360) = 0`. -/
theorem C7_wrap_boundary :
    HeadTracker.wrap_angle (180 : ℝ) = 180 ∧
    HeadTracker.wrap_angle (181 : ℝ) = -179 ∧
    HeadTracker.wrap_angle (-181 : ℝ) = 179 ∧
    HeadTracker.wrap_angle (360 : ℝ) = 0 := by
  refine ⟨HeadTracker.wrap_angle_eq_self (by norm_num) (by norm_num), ?_, ?_, ?_⟩
  · unfold HeadTracker.wrap_angle
    rw [HeadTracker.wrapDown, if_pos (by norm_num), HeadTracker.wrapDown, if_neg (by norm_num)]
    norm_num
    rw [HeadTracker.wrapUp, if_neg (by norm_num)]
  · unfold HeadTracker.wrap_angle
    rw [HeadTracker.wrapDown, if_neg (by norm_num), HeadTracker.wrapUp, if_pos (by norm_num),
      HeadTracker.wrapUp, if_neg (by norm_num)]
    norm_num
  · unfold HeadTracker.wrap_angle
    rw [HeadTracker.wrapDown, if_pos (by norm_num), HeadTracker.wrapDown, if_neg (by norm_num)]
    norm_num
    rw [HeadTracker.wrapUp, if_neg (by norm_num)]

/-- C8: feeding a byte stream split into arbitrary chunks through the
framing loop yields exactly the same ordered sequence of frames — and
hence of decoded samples — as feeding the entire stream as one chunk. -/
theorem C8_chunk_boundary_independence (chunks : List (List Nat)) :
    (feedSeq [] chunks).1 = (feedSeq [] [chunks.flatten]).1 ∧
    ((feedSeq [] chunks).1.filterMap IMUReader.process_message =
      (feedSeq [] [chunks.flatten]).1.filterMap IMUReader.process_message) := by
  have hq : processBuffer ([] : List Nat) = ([], []) := processBuffer_none1 (by decide)
  have h1 := feedSeq_join [] chunks hq
  have h2 := feedSeq_join [] [chunks.flatten] hq
  rw [h1, h2]
  simp


/-- C9: in every reachable tracker state the calibration count never
exceeds the target 500, `is_calibrated` holds exactly when the count
equals the target, the count equals the number of stored samples, and the
reported calibration progress is between 0 and 100. -/
theorem C9_calibration_invariant (s : HeadTracker) (h : Reachable s) :
    s.calibration_count ≤ s.calibration_target ∧
    s.calibration_target = 500 ∧
    (s.is_calibrated = true ↔ s.calibration_count = s.calibration_target) ∧
    s.calibration_count = s.calibration_samples.length ∧
    0 ≤ s.get_calibration_progress ∧ s.get_calibration_progress ≤ 100 := by
  have core : s.calibration_count ≤ s.calibration_target ∧
      s.calibration_target = 500 ∧
      (s.is_calibrated = true ↔ s.calibration_count = s.calibration_target) ∧
      s.calibration_count = s.calibration_samples.length := by
    induction h with
    | init t => simp [HeadTracker.init]
    | @calibrate s0 d hs ih =>
      by_cases hc : s0.is_calibrated = true
      · rw [HeadTracker.calibrate_already d hc]
        exact ih
      · have hc' : s0.is_calibrated = false := by
          simpa using hc
        obtain ⟨ih1, ih2, ih3, ih4⟩ := ih
        have hne : s0.calibration_count ≠ s0.calibration_target := by
          intro heq
          rw [← ih3] at heq
          exact hc (by simp [heq])
        by_cases hdone : s0.calibration_target ≤ s0.calibration_count + 1
        · rw [HeadTracker.calibrate_step_done d hc' hdone]
          refine ⟨by simp; omega, by simpa using ih2, by simp; omega, by simp; omega⟩
        · have hlt : s0.calibration_count + 1 < s0.calibration_target := by omega
          rw [HeadTracker.calibrate_step_not_yet d hc' hlt]
          refine ⟨by simp; omega, by simpa using ih2, by simp [hc']; omega, by simp; omega⟩
    | @update s0 d now hs ih =>
      obtain ⟨e1, e2, e3, e4⟩ := HeadTracker.update_calib_fields s0 d now
      rw [e1, e2, e3, e4]
      exact ih
    | @zero s0 hs ih =>
      simpa [HeadTracker.zero_view] using ih
    | @reset s0 hs ih =>
      refine ⟨by simp [HeadTracker.reset_calibration], ?_, ?_, ?_⟩
      · simpa [HeadTracker.reset_calibration] using ih.2.1
      · simp [HeadTracker.reset_calibration]
        omega
      · simp [HeadTracker.reset_calibration]
  obtain ⟨h1, h2, h3, h4⟩ := core
  refine ⟨h1, h2, h3, h4, ?_, ?_⟩
  · unfold HeadTracker.get_calibration_progress
    positivity
  · unfold HeadTracker.get_calibration_progress
    rw [h2]
    have hc5 : s.calibration_count ≤ 500 := by omega
    have hcast : (s.calibration_count : ℝ) ≤ 500 := by exact_mod_cast hc5
    have hdiv : (s.calibration_count : ℝ) / 500 ≤ 1 := by
      rw [div_le_one (by norm_num)]
      exact hcast
    norm_num
    nlinarith

/-- C9 witness: the invariant at the concrete reachable initial state. -/
theorem C9_witness :
    Reachable (HeadTracker.init 0) ∧
    ((HeadTracker.init 0).calibration_count ≤ (HeadTracker.init 0).calibration_target ∧
     (HeadTracker.init 0).calibration_target = 500 ∧
     ((HeadTracker.init 0).is_calibrated = true ↔
       (HeadTracker.init 0).calibration_count = (HeadTracker.init 0).calibration_target) ∧
     (HeadTracker.init 0).calibration_count = (HeadTracker.init 0).calibration_samples.length ∧
     0 ≤ (HeadTracker.init 0).get_calibration_progress ∧
     (HeadTracker.init 0).get_calibration_progress ≤ 100) :=
  ⟨Reachable.init 0, C9_calibration_invariant (HeadTracker.init 0) (Reachable.init 0)⟩

/-- C10: `reset_calibration` resets exactly the calibration fields
(samples, count, flag, biases) and leaves the orientation angles, the
zero reference and the last-update timestamp untouched, so a zero
reference set by `zero_view` before recalibration survives it. -/
theorem C10_reset_frame_effect (s : HeadTracker) :
    s.reset_calibration.pitch = s.pitch ∧
    s.reset_calibration.yaw = s.yaw ∧
    s.reset_calibration.roll = s.roll ∧
    s.reset_calibration.zero_pitch = s.zero_pitch ∧
    s.reset_calibration.zero_yaw = s.zero_yaw ∧
    s.reset_calibration.zero_roll = s.zero_roll ∧
    s.reset_calibration.last_time = s.last_time ∧
    s.reset_calibration.movement_threshold = s.movement_threshold ∧
    s.reset_calibration.pitch_scale = s.pitch_scale ∧
    s.reset_calibration.yaw_scale = s.yaw_scale ∧
    s.reset_calibration.roll_scale = s.roll_scale ∧
    s.reset_calibration.calibration_target = s.calibration_target ∧
    s.reset_calibration.calibration_samples = [] ∧
    s.reset_calibration.calibration_count = 0 ∧
    s.reset_calibration.is_calibrated = false ∧
    s.reset_calibration.gyro_bias_x = 0 ∧
    s.reset_calibration.gyro_bias_y = 0 ∧
    s.reset_calibration.gyro_bias_z = 0 ∧
    s.zero_view.reset_calibration.zero_pitch = s.pitch ∧
    s.zero_view.reset_calibration.zero_yaw = s.yaw ∧
    s.zero_view.reset_calibration.zero_roll = s.roll :=
  ⟨rfl, rfl, rfl, rfl, rfl, rfl, rfl, rfl, rfl, rfl, rfl, rfl, rfl, rfl, rfl, rfl, rfl, rfl,
   rfl, rfl, rfl⟩

end IMURepo
